import Mathlib

/-!
Shallow embedding of the Acala `chainlink-adaptor` module
(src/ecosystem-modules/chainlink/chainlink-adaptor/src/lib.rs).

The module keeps two storage maps:
  * `FeedIdMapping : CurrencyId → Option FeedId` (OptionQuery),
  * `LastUpdatedTimestamp : FeedId → Moment` (ValueQuery, default 0),
an event sink, and exposes the dispatchables `mapping_feed_id` /
`unmapping_feed_id`, the `OnAnswerHandler` hook `on_answer`, and the
read API `get` / `get_no_op` / `get_all_values`.

External collaborators (the chainlink feed pallet, the value converter,
the origin check and the time source) are not part of this repository's
sources; they are modelled from the spec as an `Env` record.
-/

namespace ChainlinkAdaptor

abbrev CurrencyId := Nat
abbrev FeedId := Nat
abbrev FeedValue := Nat
abbrev Price := Nat
abbrev Moment := Nat
abbrev Origin := Nat

/-- Modelled from the spec: the external collaborators of the adaptor.
`feedExists` is the Feed Oracle's feed-existence test used by the `map`
precondition (`pallet_chainlink_feed::Feeds::get(feed_id).is_some()`);
`latestRound` is the Feed Oracle's `latest_round(feed_id) -> Option NativeValue`
(the composition `feed(feed_id)` + `latest_data().answer` of the code, absent
when the feed has no round data yet); `convert` is the Price Converter
`T::Convert::convert : FeedValue -> Option Price`; `authorized` is the
`RegistorOrigin::ensure_origin` check. -/
structure Env where
  feedExists : FeedId → Bool
  latestRound : FeedId → Option FeedValue
  convert : FeedValue → Option Price
  authorized : Origin → Bool

/-- One association-list storage map, as used for `FeedIdMapping`. -/
def map_lookup (m : List (CurrencyId × FeedId)) (k : CurrencyId) : Option FeedId :=
  (m.find? (fun p => p.1 == k)).map Prod.snd

def map_remove (m : List (CurrencyId × FeedId)) (k : CurrencyId) :
    List (CurrencyId × FeedId) :=
  m.filter (fun p => ¬ p.1 == k)

def map_insert (m : List (CurrencyId × FeedId)) (k : CurrencyId) (v : FeedId) :
    List (CurrencyId × FeedId) :=
  (k, v) :: map_remove m k

def contains_key (m : List (CurrencyId × FeedId)) (k : CurrencyId) : Bool :=
  (map_lookup m k).isSome

/-- Events deposited by the module (`Event::MappingFeedId`,
`Event::UnmappingFeedId`), each carrying `(feed_id, currency_id)`. -/
inductive Event where
  | MappingFeedId (feed_id : FeedId) (currency_id : CurrencyId)
  | UnmappingFeedId (feed_id : FeedId) (currency_id : CurrencyId)
deriving DecidableEq, Repr

/-- `Error<T>` of the module, together with the `BadOrigin` dispatch error
produced by a failing `ensure_origin`. -/
inductive Err where
  | BadOrigin
  | CurrencyIdAlreadyMapping
  | InvalidFeedId
deriving DecidableEq, Repr

/-- The module's storage: `FeedIdMapping` (OptionQuery storage map),
`LastUpdatedTimestamp` (ValueQuery storage map: `none` means no entry, read
through `last_updated_timestamp` which defaults to `0`), and the deposited
events. -/
structure State where
  feedIdMapping : List (CurrencyId × FeedId)
  lastUpdatedTimestamp : FeedId → Option Moment
  events : List Event

/-- Getter `feed_id_mapping` (OptionQuery). -/
def feed_id_mapping (s : State) (c : CurrencyId) : Option FeedId :=
  map_lookup s.feedIdMapping c

/-- Getter `last_updated_timestamp` (ValueQuery: absent key reads as the
default `Moment`, i.e. `0`). -/
def last_updated_timestamp (s : State) (f : FeedId) : Moment :=
  (s.lastUpdatedTimestamp f).getD 0

/-- Dispatchable `mapping_feed_id`.  Checks `RegistorOrigin`, then
`ensure!(!FeedIdMapping::contains_key(currency_id), CurrencyIdAlreadyMapping)`,
then `ensure!(Feeds::get(feed_id).is_some(), InvalidFeedId)`, then inserts the
pair and deposits `Event::MappingFeedId(feed_id, currency_id)`.  The
`#[transactional]` attribute means an error leaves the state untouched, so the
embedding returns the (unchanged) state paired with the error. -/
def mapping_feed_id (env : Env) (origin : Origin) (feed_id : FeedId)
    (currency_id : CurrencyId) (s : State) : State × Option Err :=
  if ¬ env.authorized origin then (s, some Err.BadOrigin)
  else if contains_key s.feedIdMapping currency_id then
    (s, some Err.CurrencyIdAlreadyMapping)
  else if ¬ env.feedExists feed_id then (s, some Err.InvalidFeedId)
  else
    ({ s with
        feedIdMapping := map_insert s.feedIdMapping currency_id feed_id,
        events := s.events ++ [Event.MappingFeedId feed_id currency_id] },
      none)

/-- Dispatchable `unmapping_feed_id`.  Checks `RegistorOrigin`; then
`FeedIdMapping::take(currency_id)`: if an entry existed it is removed and
`Event::UnmappingFeedId(feed_id, currency_id)` is deposited, otherwise the
call succeeds with no effect. -/
def unmapping_feed_id (env : Env) (origin : Origin) (currency_id : CurrencyId)
    (s : State) : State × Option Err :=
  if ¬ env.authorized origin then (s, some Err.BadOrigin)
  else
    match map_lookup s.feedIdMapping currency_id with
    | some feed_id =>
        ({ s with
            feedIdMapping := map_remove s.feedIdMapping currency_id,
            events := s.events ++ [Event.UnmappingFeedId feed_id currency_id] },
          none)
    | none => (s, none)

/-- `OnAnswerHandler::on_answer`: stores the current time-source value against
`feed_id`, unconditionally overwriting any prior entry.  `now` is the value of
`T::Time::now()` at the invocation. -/
def on_answer (now : Moment) (feed_id : FeedId) (s : State) : State :=
  { s with
      lastUpdatedTimestamp := fun f =>
        if f == feed_id then some now else s.lastUpdatedTimestamp f }

/-- `get_price_from_chainlink_feed`: registry lookup, then the feed's latest
round answer, then the converter; any absence collapses to `none`. -/
def get_price_from_chainlink_feed (env : Env) (s : State)
    (currency_id : CurrencyId) : Option Price :=
  ((feed_id_mapping s currency_id).bind env.latestRound).bind env.convert

/-- `DataProvider::get`. -/
def get (env : Env) (s : State) (key : CurrencyId) : Option Price :=
  get_price_from_chainlink_feed env s key

/-- `TimestampedValue` of `orml_oracle`. -/
structure TimestampedValue where
  value : Price
  timestamp : Moment
deriving DecidableEq, Repr

/-- `DataProviderExtended::get_no_op`: the price from
`get_price_from_chainlink_feed`, timestamped with
`feed_id_mapping(key).map(last_updated_timestamp).unwrap_or_default()`. -/
def get_no_op (env : Env) (s : State) (key : CurrencyId) :
    Option TimestampedValue :=
  (get_price_from_chainlink_feed env s key).map (fun price =>
    { value := price,
      timestamp :=
        ((feed_id_mapping s key).map
          (fun feed_id => last_updated_timestamp s feed_id)).getD 0 })

/-- `DataProviderExtended::get_all_values`: one entry per `FeedIdMapping`
entry, each paired with its `get_no_op` result. -/
def get_all_values (env : Env) (s : State) :
    List (CurrencyId × Option TimestampedValue) :=
  s.feedIdMapping.map (fun p => (p.1, get_no_op env s p.1))

/-- A sequence of `on_answer` invocations, each tagged with the time-source
value at its invocation. -/
def run_answers (evs : List (Moment × FeedId)) (s : State) : State :=
  evs.foldl (fun st ev => on_answer ev.1 ev.2 st) s

/-- A concrete environment used to exercise the theorems: feed `7` exists and
currently answers `100`, which converts to price `1`; origin `0` is the
registrar origin. -/
def env1 : Env where
  feedExists := fun f => f == 7
  latestRound := fun f => if f == 7 then some 100 else none
  convert := fun v => if v == 100 then some 1 else none
  authorized := fun o => o == 0

/-- The empty storage state. -/
def s0 : State where
  feedIdMapping := []
  lastUpdatedTimestamp := fun _ => none
  events := []

/-- A concrete state where asset `5` is mapped to feed `7` and feed `7` was
last updated at moment `42`. -/
def s1 : State where
  feedIdMapping := [(5, 7)]
  lastUpdatedTimestamp := fun f => if f == 7 then some 42 else none
  events := []

theorem map_lookup_insert (m : List (CurrencyId × FeedId)) (k : CurrencyId)
    (v : FeedId) : map_lookup (map_insert m k v) k = some v := by
  simp [map_lookup, map_insert, List.find?]

theorem map_lookup_remove (m : List (CurrencyId × FeedId)) (k : CurrencyId) :
    map_lookup (map_remove m k) k = none := by
  induction m with
  | nil => rfl
  | cons x t ih =>
      by_cases hx : x.1 = k
      · simp [map_lookup, map_remove, hx] at ih ⊢
      · simp [map_lookup, map_remove, hx, List.find?] at ih ⊢

/-- C1: `get` returns `none` exactly in the three unavailability cases — no
mapping entry for the asset id, mapped feed without round data, or converter
failure on the feed's latest value — and otherwise returns the converted
price; the `Option` result surfaces no distinct error for the three cases. -/
theorem get_price_resolution (env : Env) (s : State) (a : CurrencyId) :
    (feed_id_mapping s a = none → get env s a = none) ∧
    (∀ fid, feed_id_mapping s a = some fid → env.latestRound fid = none →
      get env s a = none) ∧
    (∀ fid v, feed_id_mapping s a = some fid → env.latestRound fid = some v →
      get env s a = env.convert v) := by
  refine ⟨fun h => ?_, fun fid h hr => ?_, fun fid v h hr => ?_⟩
  · simp [get, get_price_from_chainlink_feed, h]
  · simp [get, get_price_from_chainlink_feed, h, hr]
  · simp [get, get_price_from_chainlink_feed, h, hr]

/-- C1 witness: in `env1`/`s1`, asset `5` is mapped to feed `7`, whose latest
value `100` converts, so `get` returns the converted price. -/
theorem get_price_resolution_witness :
    get env1 s1 5 = env1.convert 100 :=
  (get_price_resolution env1 s1 5).2.2 7 100 (by decide) (by decide)

/-- C2: `get_no_op` returns `some` exactly when `get` does, pairing the same
price with `last_updated_timestamp` of the mapped feed; a feed with no
recorded timestamp reads as the time source's default `0`. -/
theorem get_no_op_resolution (env : Env) (s : State) (a : CurrencyId) :
    (get env s a = none → get_no_op env s a = none) ∧
    (∀ p fid, get env s a = some p → feed_id_mapping s a = some fid →
      get_no_op env s a = some ⟨p, last_updated_timestamp s fid⟩) ∧
    (∀ fid, s.lastUpdatedTimestamp fid = none →
      last_updated_timestamp s fid = 0) := by
  refine ⟨fun h => ?_, fun p fid hp hm => ?_, fun fid h => ?_⟩
  · simp [get] at h
    simp [get_no_op, h]
  · simp [get] at hp
    simp [get_no_op, hp, hm]
  · simp [last_updated_timestamp, h]

/-- C2 witness: in `env1`/`s1`, asset `5` resolves to price `1` and feed `7`
was last updated at moment `42`, so `get_no_op` returns both. -/
theorem get_no_op_resolution_witness :
    get_no_op env1 s1 5 = some ⟨1, last_updated_timestamp s1 7⟩ :=
  (get_no_op_resolution env1 s1 5).2.1 1 7 (by decide) (by decide)

/-- C5: a caller failing the origin check receives the authorization error
from both `mapping_feed_id` and `unmapping_feed_id`, with the state (registry,
tracker and events) returned unchanged. -/
theorem unauthorized_no_change (env : Env) (o : Origin) (fid : FeedId)
    (a : CurrencyId) (s : State) (h : env.authorized o = false) :
    mapping_feed_id env o fid a s = (s, some Err.BadOrigin) ∧
    unmapping_feed_id env o a s = (s, some Err.BadOrigin) := by
  constructor <;> simp [mapping_feed_id, unmapping_feed_id, h]

/-- C5 witness: origin `1` is not the registrar origin in `env1`, so both
dispatchables fail with `BadOrigin` and leave `s1` unchanged. -/
theorem unauthorized_no_change_witness :
    mapping_feed_id env1 1 7 6 s1 = (s1, some Err.BadOrigin) ∧
    unmapping_feed_id env1 1 6 s1 = (s1, some Err.BadOrigin) :=
  unauthorized_no_change env1 1 7 6 s1 (by decide)

/-- C10: when the asset id is already mapped and the feed id is unknown at the
same time, `mapping_feed_id` fails with `CurrencyIdAlreadyMapping`: the
already-mapped check precedes the feed-existence check. -/
theorem mapping_feed_id_precedence (env : Env) (o : Origin) (fid : FeedId)
    (a : CurrencyId) (s : State) (hauth : env.authorized o = true)
    (hmapped : feed_id_mapping s a ≠ none)
    (_hfeed : env.feedExists fid = false) :
    mapping_feed_id env o fid a s = (s, some Err.CurrencyIdAlreadyMapping) := by
  have hc : contains_key s.feedIdMapping a = true := by
    simpa [contains_key, Option.isSome_iff_ne_none] using hmapped
  simp [mapping_feed_id, hauth, hc]

/-- C10 witness: in `s1` asset `5` is already mapped and feed `8` does not
exist in `env1`; the call reports `CurrencyIdAlreadyMapping`. -/
theorem mapping_feed_id_precedence_witness :
    mapping_feed_id env1 0 8 5 s1 = (s1, some Err.CurrencyIdAlreadyMapping) :=
  mapping_feed_id_precedence env1 0 8 5 s1 (by decide) (by decide) (by decide)

/-- C3: for an authorized caller, a feed known to the Feed Oracle and an
unmapped asset id, `mapping_feed_id` succeeds; afterwards the lookup returns
the feed id and exactly one `MappingFeedId (feed_id, asset_id)` event has been
appended. -/
theorem mapping_feed_id_success (env : Env) (o : Origin) (fid : FeedId)
    (a : CurrencyId) (s : State) (hauth : env.authorized o = true)
    (hfeed : env.feedExists fid = true)
    (hun : feed_id_mapping s a = none) :
    ∃ s₂, mapping_feed_id env o fid a s = (s₂, none) ∧
      feed_id_mapping s₂ a = some fid ∧
      s₂.events = s.events ++ [Event.MappingFeedId fid a] := by
  have hc : contains_key s.feedIdMapping a = false := by
    simp [contains_key, feed_id_mapping] at hun ⊢
    simp [hun]
  refine ⟨({ s with
      feedIdMapping := map_insert s.feedIdMapping a fid
      events := s.events ++ [Event.MappingFeedId fid a] } : State),
    ?_, ?_, rfl⟩
  · simp [mapping_feed_id, hauth, hc, hfeed]
  · simp [feed_id_mapping, map_lookup_insert]

/-- C3 witness: mapping asset `5` to the existing feed `7` from the empty
state succeeds with the expected lookup result and single event. -/
theorem mapping_feed_id_success_witness :
    ∃ s₂, mapping_feed_id env1 0 7 5 s0 = (s₂, none) ∧
      feed_id_mapping s₂ 5 = some 7 ∧
      s₂.events = s0.events ++ [Event.MappingFeedId 7 5] :=
  mapping_feed_id_success env1 0 7 5 s0 (by decide) (by decide) (by decide)

/-- C4: for an authorized caller, `mapping_feed_id` fails with
`CurrencyIdAlreadyMapping` when the asset id is already mapped, and with
`InvalidFeedId` when it is unmapped but the feed is unknown; every failure
returns the state unchanged (registry, tracker and events), and a second map
of the same asset id after a successful one fails with
`CurrencyIdAlreadyMapping` leaving the post-first-call state intact. -/
theorem mapping_feed_id_errors (env : Env) (o : Origin) (fid fid2 : FeedId)
    (a : CurrencyId) (s : State) (hauth : env.authorized o = true) :
    (feed_id_mapping s a ≠ none →
      mapping_feed_id env o fid a s = (s, some Err.CurrencyIdAlreadyMapping)) ∧
    (feed_id_mapping s a = none → env.feedExists fid = false →
      mapping_feed_id env o fid a s = (s, some Err.InvalidFeedId)) ∧
    (∀ s₂, mapping_feed_id env o fid a s = (s₂, none) →
      mapping_feed_id env o fid2 a s₂ =
        (s₂, some Err.CurrencyIdAlreadyMapping)) := by
  refine ⟨fun hm => ?_, fun hun hf => ?_, fun s₂ hok => ?_⟩
  · have hc : contains_key s.feedIdMapping a = true := by
      simpa [contains_key, Option.isSome_iff_ne_none] using hm
    simp [mapping_feed_id, hauth, hc]
  · have hc : contains_key s.feedIdMapping a = false := by
      simp [contains_key, feed_id_mapping] at hun ⊢
      simp [hun]
    simp [mapping_feed_id, hauth, hc, hf]
  · by_cases hc : contains_key s.feedIdMapping a
    · simp [mapping_feed_id, hauth, hc] at hok
    · by_cases hf : env.feedExists fid
      · simp [mapping_feed_id, hauth, hc, hf] at hok
        subst hok
        have hc2 : contains_key (map_insert s.feedIdMapping a fid) a = true := by
          simp [contains_key, map_lookup_insert]
        simp [mapping_feed_id, hauth, hc2]
      · simp [mapping_feed_id, hauth, hc, hf] at hok

/-- C4 witness: asset `5` is already mapped in `s1`, so re-mapping it fails
with `CurrencyIdAlreadyMapping` and `s1` is returned unchanged. -/
theorem mapping_feed_id_errors_witness :
    mapping_feed_id env1 0 7 5 s1 = (s1, some Err.CurrencyIdAlreadyMapping) :=
  (mapping_feed_id_errors env1 0 7 8 5 s1 (by decide)).1 (by decide)

/-- C6: for an authorized caller, `unmapping_feed_id` on an unmapped asset id
succeeds returning the state unchanged with no event; on a mapped asset id it
removes the entry and appends a `UnmappingFeedId` event. -/
theorem unmapping_feed_id_spec (env : Env) (o : Origin) (a : CurrencyId)
    (s : State) (hauth : env.authorized o = true) :
    (feed_id_mapping s a = none → unmapping_feed_id env o a s = (s, none)) ∧
    (∀ fid, feed_id_mapping s a = some fid →
      ∃ s₂, unmapping_feed_id env o a s = (s₂, none) ∧
        feed_id_mapping s₂ a = none ∧
        s₂.events = s.events ++ [Event.UnmappingFeedId fid a]) := by
  refine ⟨fun hun => ?_, fun fid hm => ?_⟩
  · simp [feed_id_mapping] at hun
    simp [unmapping_feed_id, hauth, hun]
  · simp [feed_id_mapping] at hm
    refine ⟨({ s with
        feedIdMapping := map_remove s.feedIdMapping a
        events := s.events ++ [Event.UnmappingFeedId fid a] } : State),
      ?_, ?_, rfl⟩
    · simp [unmapping_feed_id, hauth, hm]
    · simp [feed_id_mapping, map_lookup_remove]

/-- C6 witness: unmapping the unmapped asset `6` in `s1` succeeds and leaves
the state unchanged with no event. -/
theorem unmapping_feed_id_spec_witness :
    unmapping_feed_id env1 0 6 s1 = (s1, none) :=
  (unmapping_feed_id_spec env1 0 6 s1 (by decide)).1 (by decide)

/-- C7: a successful (authorized) `unmapping_feed_id` of an asset id removes
its mapping entry, while `last_updated_timestamp` of every feed id reads the
same after the call as before it. -/
theorem unmap_preserves_last_updated (env : Env) (o : Origin) (a : CurrencyId)
    (s : State) (F : FeedId) (hauth : env.authorized o = true) :
    (unmapping_feed_id env o a s).2 = none ∧
    feed_id_mapping (unmapping_feed_id env o a s).1 a = none ∧
    last_updated_timestamp (unmapping_feed_id env o a s).1 F =
      last_updated_timestamp s F := by
  rcases hm : map_lookup s.feedIdMapping a with _ | fid
  · simp [unmapping_feed_id, hauth, hm, feed_id_mapping]
  · simp [unmapping_feed_id, hauth, hm, feed_id_mapping, map_lookup_remove,
      last_updated_timestamp]

/-- C7 witness: after mapping `5 ↦ 7` in `s1`, unmapping asset `5` clears the
lookup but `last_updated_timestamp` of feed `7` still reads `42`. -/
theorem unmap_preserves_last_updated_witness :
    (unmapping_feed_id env1 0 5 s1).2 = none ∧
    feed_id_mapping (unmapping_feed_id env1 0 5 s1).1 5 = none ∧
    last_updated_timestamp (unmapping_feed_id env1 0 5 s1).1 7 =
      last_updated_timestamp s1 7 :=
  unmap_preserves_last_updated env1 0 5 s1 7 (by decide)

/-- C8: `get_all_values` lists exactly the asset ids of the current registry
entries, in the registry's order, each paired with its `get_no_op` result
(entries with unobtainable prices appear with `none` rather than being
omitted); being a total function, the batch never fails as a whole. -/
theorem get_all_values_spec (env : Env) (s : State) :
    (get_all_values env s).map Prod.fst = s.feedIdMapping.map Prod.fst ∧
    ∀ p ∈ get_all_values env s, p.2 = get_no_op env s p.1 := by
  constructor
  · simp [get_all_values]
  · intro p hp
    simp [get_all_values] at hp
    obtain ⟨c, -, rfl⟩ := hp
    rfl

/-- C8 witness: in `env1`/`s1` the batch lists exactly asset `5`, carrying its
`get_no_op` result. -/
theorem get_all_values_spec_witness :
    (get_all_values env1 s1).map Prod.fst = s1.feedIdMapping.map Prod.fst ∧
    (5, get_no_op env1 s1 5).2 = get_no_op env1 s1 5 :=
  ⟨(get_all_values_spec env1 s1).1,
    (get_all_values_spec env1 s1).2 (5, get_no_op env1 s1 5) (by decide)⟩

theorem run_answers_le (evs : List (Moment × FeedId)) (s : State) (F : FeedId)
    (hsorted : evs.Pairwise (fun e₁ e₂ => e₁.1 ≤ e₂.1))
    (hinit : ∀ ev ∈ evs, last_updated_timestamp s F ≤ ev.1) :
    last_updated_timestamp s F ≤
      last_updated_timestamp (run_answers evs s) F := by
  induction evs generalizing s with
  | nil => exact le_refl _
  | cons e rest ih =>
      obtain ⟨t, G⟩ := e
      cases hsorted with
      | cons hhead htail =>
          have h1 : last_updated_timestamp s F ≤ t :=
            hinit (t, G) (List.mem_cons_self _ _)
          have hrun : run_answers ((t, G) :: rest) s =
              run_answers rest (on_answer t G s) := rfl
          rw [hrun]
          by_cases hFG : F = G
          · have hset : last_updated_timestamp (on_answer t G s) F = t := by
              simp [on_answer, last_updated_timestamp, hFG]
            calc last_updated_timestamp s F ≤ t := h1
              _ = last_updated_timestamp (on_answer t G s) F := hset.symm
              _ ≤ last_updated_timestamp (run_answers rest (on_answer t G s)) F :=
                  ih _ htail (fun ev hev => by rw [hset]; exact hhead ev hev)
          · have hkeep : last_updated_timestamp (on_answer t G s) F =
                last_updated_timestamp s F := by
              simp [on_answer, last_updated_timestamp, hFG]
            calc last_updated_timestamp s F
                = last_updated_timestamp (on_answer t G s) F := hkeep.symm
              _ ≤ last_updated_timestamp (run_answers rest (on_answer t G s)) F :=
                  ih _ htail (fun ev hev => by
                    rw [hkeep]; exact hinit ev (List.mem_cons_of_mem _ hev))

theorem run_answers_bound (l : List (Moment × FeedId)) (s : State) (F : FeedId)
    (t : Moment) (h0 : last_updated_timestamp s F ≤ t)
    (hl : ∀ ev ∈ l, ev.1 ≤ t) :
    last_updated_timestamp (run_answers l s) F ≤ t := by
  induction l generalizing s with
  | nil => exact h0
  | cons e rest ih =>
      obtain ⟨u, G⟩ := e
      have hrun : run_answers ((u, G) :: rest) s =
          run_answers rest (on_answer u G s) := rfl
      rw [hrun]
      apply ih
      · by_cases hFG : F = G
        · have hset : last_updated_timestamp (on_answer u G s) F = u := by
            simp [on_answer, last_updated_timestamp, hFG]
          rw [hset]
          exact hl (u, G) (List.mem_cons_self _ _)
        · have hkeep : last_updated_timestamp (on_answer u G s) F =
              last_updated_timestamp s F := by
            simp [on_answer, last_updated_timestamp, hFG]
          rw [hkeep]
          exact h0
      · exact fun ev hev => hl ev (List.mem_cons_of_mem _ hev)

/-- C9: each `on_answer` invocation stores the time source's current value
against the feed id, overwriting any prior entry; and across any sequence of
invocations with non-decreasing invocation times (all at or after the
initially recorded value), `last_updated_timestamp` of a feed never decreases
from any prefix of the sequence to the whole sequence. -/
theorem on_answer_spec (s : State) (evs l₁ l₂ : List (Moment × FeedId))
    (F : FeedId) (now : Moment)
    (hsorted : evs.Pairwise (fun e₁ e₂ => e₁.1 ≤ e₂.1))
    (hinit : ∀ ev ∈ evs, last_updated_timestamp s F ≤ ev.1)
    (hsplit : evs = l₁ ++ l₂) :
    (on_answer now F s).lastUpdatedTimestamp F = some now ∧
    last_updated_timestamp (run_answers l₁ s) F ≤
      last_updated_timestamp (run_answers evs s) F := by
  subst hsplit
  constructor
  · simp [on_answer]
  · have hrun : run_answers (l₁ ++ l₂) s = run_answers l₂ (run_answers l₁ s) := by
      simp [run_answers, List.foldl_append]
    rw [hrun]
    apply run_answers_le
    · exact (List.pairwise_append.mp hsorted).2.1
    · intro ev hev
      apply run_answers_bound
      · exact hinit ev (List.mem_append_right _ hev)
      · exact fun e he => (List.pairwise_append.mp hsorted).2.2 e he ev hev

/-- C9 witness: two answers for feed `7` at times `1` then `2` from the empty
state; the tracked timestamp does not decrease, and a further answer at time
`3` overwrites the entry with `3`. -/
theorem on_answer_spec_witness :
    (on_answer 3 7 s0).lastUpdatedTimestamp 7 = some 3 ∧
    last_updated_timestamp (run_answers [(1, 7)] s0) 7 ≤
      last_updated_timestamp (run_answers [(1, 7), (2, 7)] s0) 7 :=
  on_answer_spec s0 [(1, 7), (2, 7)] [(1, 7)] [(2, 7)] 7 3
    (by decide) (by decide) rfl

end ChainlinkAdaptor
